import Mathlib

/-!
# Thread control block of the teaching kernel (code/threads/thread.h)

A shallow embedding of the part of class Thread whose bodies are written in the
header: the status and priority accessors and mutators, the identifier getters
and Print.  Member functions are state passing: a call takes the object and
gives back the returned value, the object after the call and the text written
to standard output.

Fork, Yield, Sleep, Finish, CheckOverflow, the constructor and the destructor
are only declared in the header and are not embedded.
-/

namespace NachosThread

/-! ## Data model -/

/-- Size of the saved register array, from the define of MachineStateSize. -/
def MachineStateSize : Nat := 18

/-- Size of a private execution stack in words, from the define of StackSize. -/
def StackSize : Nat := 4 * 1024

/-- Thread state, the enumerators of enum ThreadStatus in declaration order. -/
inductive ThreadStatus where
  | JUST_CREATED
  | RUNNING
  | READY
  | BLOCKED
  deriving DecidableEq

/-- Integer value of an enumerator: an enum without initialisers numbers its
enumerators 0, 1, 2, ... in declaration order. -/
def ThreadStatus.toInt : ThreadStatus → Int
  | .JUST_CREATED => 0
  | .RUNNING => 1
  | .READY => 2
  | .BLOCKED => 3

/-- Spelling of an enumerator as an identifier in the enum declaration. -/
def ThreadStatus.spelling : ThreadStatus → String
  | .JUST_CREATED => "JUST_CREATED"
  | .RUNNING => "RUNNING"
  | .READY => "READY"
  | .BLOCKED => "BLOCKED"

/-- The data members of class Thread, in the order of the header.  Pointers are
addresses, the char pointer name is the text it points to, and status holds the
integer value of the enum object, which is what the switch in getStatus
inspects. -/
structure Thread where
  stackTop : Nat
  machineState : List Int
  new_add_uid : Int
  new_add_pid : Int
  used_time_slice : Int
  fileHandler : Int
  filePointer : Int
  stack : Nat
  status : Int
  name : String
  priority : Int
  deriving DecidableEq

/-- Result of one member function call: the returned value, the object after
the call and the text the call wrote to standard output. -/
structure Call (α : Type) where
  value : α
  self : Thread
  out : List String

/-- What the source fixes about the end of a value returning body: either a
return statement is executed with a value, or control flows off the end of the
body, for which the language defines no behaviour.  The second case stands for
no particular outcome: which runs it leaves open is given by Exec.permits. -/
inductive Exec (α : Type) where
  | ret (v : α)
  | undefined
  deriving DecidableEq

/-- Source: char* getName() { return (name); } -/
def getName (t : Thread) : Call String :=
  ⟨t.name, t, []⟩

/-- Source: int getPid(){return (new_add_pid) ;} -/
def getPid (t : Thread) : Call Int :=
  ⟨t.new_add_pid, t, []⟩

/-- Source: int getUid(){return (new_add_uid) ;} -/
def getUid (t : Thread) : Call Int :=
  ⟨t.new_add_uid, t, []⟩

/-- Source: void setStatus(ThreadStatus st) { status = st; } -/
def setStatus (t : Thread) (st : ThreadStatus) : Call Unit :=
  ⟨(), { t with status := st.toInt }, []⟩

/-- Source: the switch over status with case labels 0, 1, 2, 3, each returning
a string literal, and no default label; when no label matches, control leaves
the switch and flows off the end of the function with no statement left to
execute, which is undefined behaviour. -/
def getStatus (t : Thread) : Call (Exec String) :=
  if t.status = 0 then ⟨.ret "JUST_CREATED", t, []⟩
  else if t.status = 1 then ⟨.ret "RUNNING", t, []⟩
  else if t.status = 2 then ⟨.ret "READY", t, []⟩
  else if t.status = 3 then ⟨.ret "BLOCKED", t, []⟩
  else ⟨.undefined, t, []⟩

/-- Source: int getPriority(){return priority;} -/
def getPriority (t : Thread) : Call Int :=
  ⟨t.priority, t, []⟩

/-- Source: bool setPriority(int p): when p>=1&&p<=10 it stores p and returns
true, otherwise it prints SET WRONG PRIORITY and returns false. -/
def setPriority (t : Thread) (p : Int) : Call Bool :=
  if p ≥ 1 ∧ p ≤ 10 then ⟨true, { t with priority := p }, []⟩
  else ⟨false, t, ["SET WRONG PRIORITY"]⟩

/-- Source: void Print() { printf("%s\t ", name); } -/
def Print (t : Thread) : Call Unit :=
  ⟨(), t, [t.name ++ "\t "]⟩

/-! ## Sample objects -/

/-- A thread with priority 5 in state READY. -/
def sampleThread : Thread :=
  { stackTop := 4096, machineState := List.replicate MachineStateSize 0,
    new_add_uid := 7, new_add_pid := 42, used_time_slice := 0,
    fileHandler := 0, filePointer := 0, stack := 64,
    status := 2, name := "main", priority := 5 }

/-- The two mutators whose bodies are in the header, with their arguments. -/
inductive Mutator where
  | setPriority (p : Int)
  | setStatus (st : ThreadStatus)

/-- The object after one mutator call. -/
def Mutator.apply (t : Thread) : Mutator → Thread
  | .setPriority p => (NachosThread.setPriority t p).self
  | .setStatus st => (NachosThread.setStatus t st).self

/-- Every state the object goes through while the calls are made in order,
the initial state first. -/
def mutatorStates (t : Thread) : List Mutator → List Thread
  | [] => [t]
  | m :: ms => t :: mutatorStates (m.apply t) ms

/-- Calls setPriority with each argument in order; gives the returned values
in call order and the object after the last call. -/
def setPrioritySeq (t : Thread) : List Int → List Bool × Thread
  | [] => ([], t)
  | p :: ps =>
    let c := setPriority t p
    let r := setPrioritySeq c.self ps
    (c.value :: r.1, r.2)

/-- Spec function: an argument lies in the accepted range 1..10. -/
def inRange (p : Int) : Bool :=
  decide (1 ≤ p ∧ p ≤ 10)

/-- Spec function: the last argument of the sequence that lies in 1..10, or
the initial priority when no argument does. -/
def lastAccepted (initial : Int) (ps : List Int) : Int :=
  ((ps.filter inRange).getLast?).getD initial

/-! ## Collections of threads -/

/-- A call of one of the member functions defined in the header on the thread
at position i of a collection. -/
inductive Op where
  | getName (i : Nat)
  | getPid (i : Nat)
  | getUid (i : Nat)
  | setStatus (i : Nat) (st : ThreadStatus)
  | getStatus (i : Nat)
  | getPriority (i : Nat)
  | setPriority (i : Nat) (p : Int)
  | Print (i : Nat)

/-- Position of the thread the call is made on. -/
def Op.target : Op → Nat
  | .getName i => i
  | .getPid i => i
  | .getUid i => i
  | .setStatus i _ => i
  | .getStatus i => i
  | .getPriority i => i
  | .setPriority i _ => i
  | .Print i => i

/-- The object after the call. -/
def Op.onThread (t : Thread) : Op → Thread
  | .getName _ => (NachosThread.getName t).self
  | .getPid _ => (NachosThread.getPid t).self
  | .getUid _ => (NachosThread.getUid t).self
  | .setStatus _ st => (NachosThread.setStatus t st).self
  | .getStatus _ => (NachosThread.getStatus t).self
  | .getPriority _ => (NachosThread.getPriority t).self
  | .setPriority _ p => (NachosThread.setPriority t p).self
  | .Print _ => (NachosThread.Print t).self

/-- Replaces the thread at position i by f of it; a position past the end
names no thread and changes nothing. -/
def applyAt (f : Thread → Thread) : Nat → List Thread → List Thread
  | _, [] => []
  | 0, t :: ts => f t :: ts
  | n + 1, t :: ts => t :: applyAt f n ts

/-- The collection after one call. -/
def step (sys : List Thread) (op : Op) : List Thread :=
  applyAt (fun t => op.onThread t) op.target sys

/-- The collection after a sequence of calls. -/
def run (sys : List Thread) : List Op → List Thread
  | [] => sys
  | op :: ops => run (step sys op) ops

/-- Every state of the collection while the calls are made in order, the
initial state first. -/
def states (sys : List Thread) : List Op → List (List Thread)
  | [] => [sys]
  | op :: ops => sys :: states (step sys op) ops

/-- Number of threads whose status is RUNNING. -/
def countRunning : List Thread → Nat
  | [] => 0
  | t :: ts => (if t.status = ThreadStatus.RUNNING.toInt then 1 else 0) + countRunning ts

/-- The thread at position i exists and its status is RUNNING. -/
def runningAt : List Thread → Nat → Bool
  | [], _ => false
  | t :: _, 0 => decide (t.status = ThreadStatus.RUNNING.toInt)
  | _ :: ts, n + 1 => runningAt ts n

/-- A call respects the single running thread discipline: setStatus(RUNNING)
is made only when no thread is RUNNING or on the thread that is RUNNING
already; every other call is free. -/
def admissible (sys : List Thread) : Op → Bool
  | .setStatus i .RUNNING => countRunning sys == 0 || runningAt sys i
  | _ => true

/-- Every call of the sequence is admissible in the state it is made in. -/
def guarded (sys : List Thread) : List Op → Bool
  | [] => true
  | op :: ops => admissible sys op && guarded (step sys op) ops

/-- Two threads, both READY. -/
def twoReady : List Thread :=
  [sampleThread, { sampleThread with name := "worker", new_add_pid := 43 }]

/-! ## Single call properties -/

/-- C1: for every thread and every p with 1 <= p <= 10, setPriority(p) returns
true and getPriority() on the resulting object returns p. -/
theorem c1_setPriority_in_range (t : Thread) (p : Int) (h : 1 ≤ p ∧ p ≤ 10) :
    (setPriority t p).value = true ∧
      (getPriority (setPriority t p).self).value = p := by
  have hc : p ≥ 1 ∧ p ≤ 10 := h
  simp [setPriority, getPriority, hc]

theorem c1_setPriority_in_range_witness :
    ((1 : Int) ≤ 10 ∧ (10 : Int) ≤ 10) ∧
      (setPriority sampleThread 10).value = true ∧
      (getPriority (setPriority sampleThread 10).self).value = 10 :=
  ⟨by decide, c1_setPriority_in_range sampleThread 10 (by decide)⟩

/-- C2: for every thread and every p with p < 1 or p > 10, setPriority(p)
returns false and the object after the call is the object before it, so
getPriority, the status and the identifiers read the same as before. -/
theorem c2_setPriority_out_of_range (t : Thread) (p : Int) (h : p < 1 ∨ p > 10) :
    (setPriority t p).value = false ∧
      (setPriority t p).self = t ∧
      (getPriority (setPriority t p).self).value = (getPriority t).value ∧
      (getStatus (setPriority t p).self).value = (getStatus t).value ∧
      (getPid (setPriority t p).self).value = (getPid t).value ∧
      (getUid (setPriority t p).self).value = (getUid t).value ∧
      (getName (setPriority t p).self).value = (getName t).value := by
  have hc : ¬ (p ≥ 1 ∧ p ≤ 10) := by omega
  simp [setPriority, hc]

theorem c2_setPriority_out_of_range_witness :
    ((0 : Int) < 1 ∨ (0 : Int) > 10) ∧
      (getPriority sampleThread).value = 5 ∧
      (setPriority sampleThread 0).value = false ∧
      (getPriority (setPriority sampleThread 0).self).value = 5 :=
  have h := c2_setPriority_out_of_range sampleThread 0 (by decide)
  ⟨by decide, rfl, h.1, by rw [h.2.1]; rfl⟩

/-- C4: for every thread and every enumerator st, getStatus() after
setStatus(st) returns the label spelled like the enumerator, so the case labels
0..3 agree with the declaration order of the enum. -/
theorem c4_getStatus_label (t : Thread) (st : ThreadStatus) :
    (getStatus (setStatus t st).self).value = Exec.ret st.spelling := by
  cases st <;> simp [getStatus, setStatus, ThreadStatus.toInt, ThreadStatus.spelling]

/-- C7: the accessors are reads.  getName, getPid, getUid and getPriority
return the field they are named after, leave the object as it was and write
nothing; Print leaves the object as it was; getStatus on a status in 0..3
returns a label and leaves the object as it was. -/
theorem c7_accessors_pure (t : Thread) :
    ((getName t).value = t.name ∧ (getName t).self = t ∧ (getName t).out = []) ∧
      ((getPid t).value = t.new_add_pid ∧ (getPid t).self = t ∧ (getPid t).out = []) ∧
      ((getUid t).value = t.new_add_uid ∧ (getUid t).self = t ∧ (getUid t).out = []) ∧
      ((getPriority t).value = t.priority ∧ (getPriority t).self = t ∧
        (getPriority t).out = []) ∧
      (Print t).self = t ∧
      (0 ≤ t.status ∧ t.status ≤ 3 →
        (∃ l, (getStatus t).value = Exec.ret l) ∧ (getStatus t).self = t ∧
          (getStatus t).out = []) := by
  refine ⟨⟨rfl, rfl, rfl⟩, ⟨rfl, rfl, rfl⟩, ⟨rfl, rfl, rfl⟩, ⟨rfl, rfl, rfl⟩, rfl, ?_⟩
  intro h
  have hs : t.status = 0 ∨ t.status = 1 ∨ t.status = 2 ∨ t.status = 3 := by omega
  rcases hs with h0 | h1 | h2 | h3
  · simp [getStatus, h0]
  · simp [getStatus, h1]
  · simp [getStatus, h2]
  · simp [getStatus, h3]

theorem c7_accessors_pure_witness :
    (0 ≤ sampleThread.status ∧ sampleThread.status ≤ 3) ∧
      (∃ l, (getStatus sampleThread).value = Exec.ret l) ∧
      (getStatus sampleThread).self = sampleThread ∧
      (getStatus sampleThread).out = [] :=
  ⟨by decide, (c7_accessors_pure sampleThread).2.2.2.2.2 (by decide)⟩

/-- C9: setStatus(st) changes no field but status, setPriority(p) changes no
field but priority for any integer p, and the two calls commute: either order
gives the same object, the same returned value and the same output. -/
theorem c9_mutators_frame (t : Thread) (st : ThreadStatus) (p : Int) :
    ((setStatus t st).self.priority = t.priority ∧
      (setStatus t st).self.name = t.name ∧
      (setStatus t st).self.new_add_pid = t.new_add_pid ∧
      (setStatus t st).self.new_add_uid = t.new_add_uid ∧
      (setStatus t st).self.used_time_slice = t.used_time_slice ∧
      (setStatus t st).self.fileHandler = t.fileHandler ∧
      (setStatus t st).self.filePointer = t.filePointer ∧
      (setStatus t st).self.stackTop = t.stackTop ∧
      (setStatus t st).self.stack = t.stack ∧
      (setStatus t st).self.machineState = t.machineState) ∧
    ((setPriority t p).self.status = t.status ∧
      (setPriority t p).self.name = t.name ∧
      (setPriority t p).self.new_add_pid = t.new_add_pid ∧
      (setPriority t p).self.new_add_uid = t.new_add_uid ∧
      (setPriority t p).self.used_time_slice = t.used_time_slice ∧
      (setPriority t p).self.fileHandler = t.fileHandler ∧
      (setPriority t p).self.filePointer = t.filePointer ∧
      (setPriority t p).self.stackTop = t.stackTop ∧
      (setPriority t p).self.stack = t.stack ∧
      (setPriority t p).self.machineState = t.machineState) ∧
    ((setPriority (setStatus t st).self p).self
        = (setStatus (setPriority t p).self st).self ∧
      (setPriority (setStatus t st).self p).value = (setPriority t p).value ∧
      (setPriority (setStatus t st).self p).out = (setPriority t p).out) := by
  refine ⟨⟨rfl, rfl, rfl, rfl, rfl, rfl, rfl, rfl, rfl, rfl⟩, ?_, ?_⟩
  · by_cases hc : p ≥ 1 ∧ p ≤ 10 <;> simp [setPriority, hc]
  · by_cases hc : p ≥ 1 ∧ p ≤ 10 <;> simp [setPriority, setStatus, hc]

/-- C10: the labels of getStatus tell the four states apart: for two distinct
enumerators getStatus returns two labels and the labels differ. -/
theorem c10_getStatus_injective (t : Thread) (a b : ThreadStatus) (h : a ≠ b) :
    ∃ la lb, (getStatus (setStatus t a).self).value = Exec.ret la ∧
      (getStatus (setStatus t b).self).value = Exec.ret lb ∧ la ≠ lb := by
  cases a <;> cases b <;>
    first
    | exact absurd rfl h
    | exact ⟨_, _, rfl, rfl, by decide⟩

theorem c10_getStatus_injective_witness :
    ThreadStatus.RUNNING ≠ ThreadStatus.READY ∧
      ∃ la lb, (getStatus (setStatus sampleThread .RUNNING).self).value = Exec.ret la ∧
        (getStatus (setStatus sampleThread .READY).self).value = Exec.ret lb ∧ la ≠ lb :=
  ⟨by decide, c10_getStatus_injective sampleThread .RUNNING .READY (by decide)⟩

/-! ## Sequences of calls on one thread -/

theorem mutator_apply_priority (t : Thread) (m : Mutator)
    (h : 1 ≤ t.priority ∧ t.priority ≤ 10) :
    1 ≤ (m.apply t).priority ∧ (m.apply t).priority ≤ 10 := by
  cases m with
  | setPriority p =>
    by_cases hc : p ≥ 1 ∧ p ≤ 10
    · simp only [Mutator.apply, setPriority, hc, and_self, if_true]
    · simp only [Mutator.apply, setPriority, hc, if_false]
      exact h
  | setStatus st => exact h

/-- C3: from a thread whose priority is in 1..10, every state reached by a
finite sequence of setPriority and setStatus calls with arbitrary arguments has
its priority in 1..10. -/
theorem c3_priority_invariant (t : Thread) (ms : List Mutator)
    (h : 1 ≤ t.priority ∧ t.priority ≤ 10) :
    ∀ s ∈ mutatorStates t ms, 1 ≤ s.priority ∧ s.priority ≤ 10 := by
  induction ms generalizing t with
  | nil =>
    intro s hs
    simp only [mutatorStates, List.mem_singleton] at hs
    subst hs
    exact h
  | cons m ms ih =>
    intro s hs
    simp only [mutatorStates, List.mem_cons] at hs
    rcases hs with hs | hs
    · subst hs
      exact h
    · exact ih (m.apply t) (mutator_apply_priority t m h) s hs

theorem c3_priority_invariant_witness :
    (1 ≤ sampleThread.priority ∧ sampleThread.priority ≤ 10) ∧
      ∀ s ∈ mutatorStates sampleThread
          [.setPriority 0, .setStatus .RUNNING, .setPriority 11, .setPriority 3,
            .setPriority (-4)],
        1 ≤ s.priority ∧ s.priority ≤ 10 :=
  ⟨by decide, c3_priority_invariant sampleThread _ (by decide)⟩

theorem getLast?_getD_cons (p d : Int) (l : List Int) :
    ((p :: l).getLast?).getD d = (l.getLast?).getD p := by
  cases l with
  | nil => rfl
  | cons a l =>
    rw [List.getLast?_cons_cons]
    cases hl : (a :: l).getLast? with
    | none => simp at hl
    | some v => rfl

theorem lastAccepted_cons (initial p : Int) (ps : List Int) :
    lastAccepted initial (p :: ps)
      = lastAccepted (if p ≥ 1 ∧ p ≤ 10 then p else initial) ps := by
  unfold lastAccepted
  by_cases hc : p ≥ 1 ∧ p ≤ 10
  · have hr : inRange p = true := by
      simp only [inRange, decide_eq_true_eq]
      exact ⟨hc.1, hc.2⟩
    rw [List.filter_cons_of_pos hr, getLast?_getD_cons, if_pos hc]
  · have hr : ¬ (inRange p = true) := by
      simp only [inRange, decide_eq_true_eq]
      intro h
      exact hc ⟨h.1, h.2⟩
    rw [List.filter_cons_of_neg hr, if_neg hc]

theorem setPriority_self_priority (t : Thread) (p : Int) :
    (setPriority t p).self.priority = if p ≥ 1 ∧ p ≤ 10 then p else t.priority := by
  by_cases hc : p ≥ 1 ∧ p ≤ 10 <;> simp [setPriority, hc]

theorem setPriority_value (t : Thread) (p : Int) :
    (setPriority t p).value = inRange p := by
  by_cases hc : p ≥ 1 ∧ p ≤ 10
  · have hr : inRange p = true := by
      simp only [inRange, decide_eq_true_eq]
      exact ⟨hc.1, hc.2⟩
    simp [setPriority, hc, hr]
  · have hr : inRange p = false := by
      simp only [inRange, decide_eq_false_iff_not]
      intro h
      exact hc ⟨h.1, h.2⟩
    simp [setPriority, hc, hr]

/-- C8: after any finite sequence of setPriority calls, getPriority() is the
last argument of the sequence that lies in 1..10, or the initial priority when
none does; and the i-th call returns true exactly when its argument lies in
1..10, whatever the thread was. -/
theorem c8_setPriority_sequence (t : Thread) (ps : List Int) :
    (getPriority (setPrioritySeq t ps).2).value = lastAccepted t.priority ps ∧
      (setPrioritySeq t ps).1 = ps.map (fun p => decide (1 ≤ p ∧ p ≤ 10)) := by
  induction ps generalizing t with
  | nil => exact ⟨rfl, rfl⟩
  | cons p ps ih =>
    obtain ⟨ih1, ih2⟩ := ih (setPriority t p).self
    constructor
    · rw [lastAccepted_cons, ← setPriority_self_priority]
      exact ih1
    · simp only [setPrioritySeq, List.map_cons]
      rw [ih2, setPriority_value]
      rfl

/-! ## Collections of threads -/

theorem countRunning_applyAt_same (f : Thread → Thread)
    (hf : ∀ t, (f t).status = t.status) (i : Nat) (sys : List Thread) :
    countRunning (applyAt f i sys) = countRunning sys := by
  induction sys generalizing i with
  | nil => cases i <;> rfl
  | cons t ts ih =>
    cases i with
    | zero => simp only [applyAt, countRunning, hf]
    | succ n => simp only [applyAt, countRunning, ih]

theorem countRunning_applyAt_off (f : Thread → Thread)
    (hf : ∀ t, (f t).status ≠ ThreadStatus.RUNNING.toInt) (i : Nat) (sys : List Thread) :
    countRunning (applyAt f i sys) ≤ countRunning sys := by
  induction sys generalizing i with
  | nil => cases i <;> exact Nat.le_refl _
  | cons t ts ih =>
    cases i with
    | zero =>
      simp only [applyAt, countRunning, hf, if_false]
      omega
    | succ n =>
      simp only [applyAt, countRunning]
      have := ih n
      omega

theorem countRunning_applyAt_le_succ (f : Thread → Thread) (i : Nat) (sys : List Thread) :
    countRunning (applyAt f i sys) ≤ countRunning sys + 1 := by
  induction sys generalizing i with
  | nil => cases i <;> exact Nat.le_succ _
  | cons t ts ih =>
    cases i with
    | zero =>
      simp only [applyAt, countRunning]
      split <;> split <;> omega
    | succ n =>
      simp only [applyAt, countRunning]
      have := ih n
      omega

theorem countRunning_applyAt_on (f : Thread → Thread)
    (hf : ∀ t, (f t).status = ThreadStatus.RUNNING.toInt) (i : Nat) (sys : List Thread)
    (hr : runningAt sys i = true) :
    countRunning (applyAt f i sys) = countRunning sys := by
  induction sys generalizing i with
  | nil => cases i <;> simp [runningAt] at hr
  | cons t ts ih =>
    cases i with
    | zero =>
      simp only [runningAt, decide_eq_true_eq] at hr
      simp only [applyAt, countRunning, hf, hr]
    | succ n =>
      simp only [runningAt] at hr
      simp only [applyAt, countRunning, ih n hr]

theorem setPriority_self_status (t : Thread) (p : Int) :
    (setPriority t p).self.status = t.status := by
  by_cases hc : p ≥ 1 ∧ p ≤ 10 <;> simp [setPriority, hc]

theorem getStatus_self (t : Thread) : (getStatus t).self = t := by
  unfold getStatus
  split_ifs <;> rfl

theorem countRunning_step (sys : List Thread) (op : Op)
    (h : countRunning sys ≤ 1) (ha : admissible sys op = true) :
    countRunning (step sys op) ≤ 1 := by
  cases op with
  | getName i =>
    exact Nat.le_trans (Nat.le_of_eq (countRunning_applyAt_same _ (fun _ => rfl) _ sys)) h
  | getPid i =>
    exact Nat.le_trans (Nat.le_of_eq (countRunning_applyAt_same _ (fun _ => rfl) _ sys)) h
  | getUid i =>
    exact Nat.le_trans (Nat.le_of_eq (countRunning_applyAt_same _ (fun _ => rfl) _ sys)) h
  | getPriority i =>
    exact Nat.le_trans (Nat.le_of_eq (countRunning_applyAt_same _ (fun _ => rfl) _ sys)) h
  | Print i =>
    exact Nat.le_trans (Nat.le_of_eq (countRunning_applyAt_same _ (fun _ => rfl) _ sys)) h
  | getStatus i =>
    exact Nat.le_trans (Nat.le_of_eq (countRunning_applyAt_same _
      (fun t => congrArg Thread.status (getStatus_self t)) _ sys)) h
  | setPriority i p =>
    exact Nat.le_trans (Nat.le_of_eq (countRunning_applyAt_same _
      (fun t => setPriority_self_status t p) _ sys)) h
  | setStatus i st =>
    cases st with
    | RUNNING =>
      simp only [admissible, Bool.or_eq_true, beq_iff_eq] at ha
      rcases ha with h0 | hr
      · have := countRunning_applyAt_le_succ
          (fun t => (Op.setStatus i .RUNNING).onThread t) i sys
        simp only [step, Op.target]
        omega
      · simp only [step, Op.target]
        rw [countRunning_applyAt_on _ (fun _ => rfl) i sys hr]
        exact h
    | JUST_CREATED =>
      exact Nat.le_trans
        (countRunning_applyAt_off _
          (fun _ => by simp [Op.onThread, setStatus, ThreadStatus.toInt]) _ sys) h
    | READY =>
      exact Nat.le_trans
        (countRunning_applyAt_off _
          (fun _ => by simp [Op.onThread, setStatus, ThreadStatus.toInt]) _ sys) h
    | BLOCKED =>
      exact Nat.le_trans
        (countRunning_applyAt_off _
          (fun _ => by simp [Op.onThread, setStatus, ThreadStatus.toInt]) _ sys) h

/-- C6, as stated, fails: from two READY threads, setStatus(RUNNING) on each
of them leaves two threads RUNNING. -/
theorem c6_two_running :
    countRunning twoReady ≤ 1 ∧
      run twoReady [.setStatus 0 .RUNNING, .setStatus 1 .RUNNING]
        ∈ states twoReady [.setStatus 0 .RUNNING, .setStatus 1 .RUNNING] ∧
      countRunning (run twoReady [.setStatus 0 .RUNNING, .setStatus 1 .RUNNING]) = 2 := by
  refine ⟨by decide, ?_, by decide⟩
  simp [states, run]

/-- C6, amended: from a collection with at most one RUNNING thread, every
state reached by a sequence of header calls has at most one RUNNING thread,
provided each setStatus(RUNNING) is made when no thread is RUNNING or on the
thread that is RUNNING already. -/
theorem c6_single_running_guarded (sys : List Thread) (ops : List Op)
    (h : countRunning sys ≤ 1) (hg : guarded sys ops = true) :
    ∀ s ∈ states sys ops, countRunning s ≤ 1 := by
  induction ops generalizing sys with
  | nil =>
    intro s hs
    simp only [states, List.mem_singleton] at hs
    subst hs
    exact h
  | cons op ops ih =>
    simp only [guarded, Bool.and_eq_true] at hg
    intro s hs
    simp only [states, List.mem_cons] at hs
    rcases hs with hs | hs
    · subst hs
      exact h
    · exact ih (step sys op) (countRunning_step sys op h hg.1) hg.2 s hs

theorem c6_single_running_guarded_witness :
    (countRunning twoReady ≤ 1 ∧
      guarded twoReady
        [.setStatus 0 .RUNNING, .setPriority 1 0, .getStatus 0, .setStatus 0 .BLOCKED,
          .setStatus 1 .RUNNING, .Print 1] = true) ∧
      ∀ s ∈ states twoReady
          [.setStatus 0 .RUNNING, .setPriority 1 0, .getStatus 0, .setStatus 0 .BLOCKED,
            .setStatus 1 .RUNNING, .Print 1],
        countRunning s ≤ 1 :=
  ⟨⟨by decide, by decide⟩,
    c6_single_running_guarded twoReady _ (by decide) (by decide)⟩

end NachosThread
